import Mathlib

/-!
Verification of the notification core of the EEW-linenotify repository.

The definitions below are a shallow embedding of
`notification/linenotify/linenotify.py` (class `LineNotifyClient`) and
`src/earthquake/map.py` (class `Map`).  Python dictionaries are modelled as
insertion-ordered association lists (Python dicts preserve insertion order and
`d[k] = v` keeps the position of an existing key), machine-level details such
as the HTTP transport are modelled by explicit outcome parameters, and Python
exceptions are modelled with an explicit error type.
-/

namespace EEWLineNotify

/-- The Python exceptions that the embedded code can raise.  `keyError` models
`KeyError`, `typeError` the `TypeError` raised by an `int >= str` comparison,
`attributeError` the `AttributeError` from `None.group()`, `valueError` a
`ValueError`, `clientResponseError` the `aiohttp.ClientResponseError`,
`netError` any other `aiohttp` client exception, `cancelledError` the
`asyncio.CancelledError` (a `BaseException`, not caught by `except Exception`),
and `runtimeError` the `RuntimeError` raised by `Map.draw`. -/
inductive PyErr where
  | keyError
  | typeError
  | attributeError
  | valueError
  | clientResponseError
  | netError
  | cancelledError
  | runtimeError
  deriving DecidableEq

/-- A region key: `(city, intensity.region.name)` as built in
`get_region_intensity`. -/
abbrev RegionKey := String × String

/-- A region record: `(intensity.intensity.display, arrival epoch seconds)`,
the value stored in `self._region_intensity`. -/
abbrev RegionRecord := String × Int

/-- The `self._region_intensity` dict, modelled as an insertion-ordered
association list. -/
abbrev Table := List (RegionKey × RegionRecord)

/-- Python dict assignment `d[k] = v`: replace in place when the key exists
(keeping its position), otherwise append at the end. -/
def dictSet (t : Table) (k : RegionKey) (v : RegionRecord) : Table :=
  match t with
  | [] => [(k, v)]
  | (k', v') :: rest => if k' = k then (k, v) :: rest else (k', v') :: dictSet rest k v

/-- Python dict lookup `d.get(k)` / membership: first (unique) binding of `k`. -/
def dictGet? (t : Table) (k : RegionKey) : Option RegionRecord :=
  match t with
  | [] => none
  | (k', v') :: rest => if k' = k then some v' else dictGet? rest k

/-- One entry of `eq.city_max_intensity` as consumed by
`get_region_intensity`: the city name, `intensity.region.name`,
`intensity.intensity.value`, `intensity.intensity.display` and
`int(intensity.distance.s_arrival_time.timestamp())`. -/
structure RegionEstimate where
  city : String
  regionName : String
  value : Int
  display : String
  sArrival : Int
  deriving DecidableEq

/-- The intensity filter of `get_region_intensity`: the default branch keeps
`intensity.value > 0`, the customized branch keeps `intensity.value >= 0`. -/
def qualifies (customize : Bool) (v : Int) : Bool :=
  if customize then decide (0 ≤ v) else decide (0 < v)

/-- One loop iteration of `get_region_intensity`: for a qualifying estimate,
`serial <= 1` stores `(display, sArrival)`; otherwise the code stores
`(display, self._region_intensity[key][1])`, which raises `KeyError` when the
key is not yet in the dict. -/
def update_region (customize : Bool) (serial : Int) (t : Table)
    (e : RegionEstimate) : Except PyErr Table :=
  if qualifies customize e.value then
    let key : RegionKey := (e.city, e.regionName)
    if serial ≤ 1 then
      .ok (dictSet t key (e.display, e.sArrival))
    else
      match dictGet? t key with
      | some r => .ok (dictSet t key (e.display, r.2))
      | none => .error .keyError
  else
    .ok t

/-- `LineNotifyClient.get_region_intensity`: fold the loop body over the
revision estimates (for the customized mode the per-city intensity lists are
concatenated in iteration order, the loop body being identical).  A raised
exception stops the loop; the table keeps the updates already applied, since
the dict is mutated in place.  Returns the final table and the escaping
exception, if any. -/
def get_region_intensity (customize : Bool) (serial : Int) (t : Table) :
    List RegionEstimate → Table × Option PyErr
  | [] => (t, none)
  | e :: es =>
    match update_region customize serial t e with
    | .ok t' => get_region_intensity customize serial t' es
    | .error err => (t, some err)

/-- The longest digit run at the head of a character list (helper for
`findDigits`). -/
def takeDigits : List Char → List Char
  | [] => []
  | c :: cs => if c.isDigit then c :: takeDigits cs else []

/-- The first maximal run of digit characters of a string,
`re.search(r"\d+", s)`: `none` models a failed match. -/
def findDigits : List Char → Option (List Char)
  | [] => none
  | c :: cs =>
    if c.isDigit then some (c :: takeDigits cs) else findDigits cs

/-- `int(...)` on a non-empty digit string. -/
def digitsToNat (ds : List Char) : Nat :=
  ds.foldl (fun a c => a * 10 + (c.toNat - '0'.toNat)) 0

/-- A TOML configuration value for `customization.threshold`: either numeric
or a (non-numeric) string. -/
inductive ConfVal where
  | int (n : Int)
  | str (s : String)

/-- The `customization` settings table consumed through
`self._custom_set.get(...)`. -/
structure Customization where
  enable : Bool
  threshold : ConfVal

/-- `LineNotifyClient.check_intensity`.  The Python loop body ends in
`return True` / `return False` on its very first iteration, so only the first
dict entry is ever examined; an empty dict falls through and returns `None`.
`int(match.group())` raises `AttributeError` when the label has no digits, and
the comparison `int(...) >= threshold` raises `TypeError` when the threshold
is a string. -/
def check_intensity (cs : Customization) (t : Table) : Except PyErr (Option Bool) :=
  match t with
  | [] => .ok none
  | (_, (display, _)) :: _ =>
    match findDigits display.data with
    | none => .error .attributeError
    | some ds =>
      match cs.threshold with
      | .int n => .ok (some (decide ((digitsToNat ds : Int) ≥ n)))
      | .str _ => .error .typeError

/-- Python truthiness of the value returned by `check_intensity`
(`None` is falsy). -/
def truthy : Option Bool → Bool
  | none => false
  | some b => b

/-- The header chosen by `_send_region_intensity` for the region breakdown:
first report (`serial <= 1`) versus update. -/
def region_header (serial : Int) : String :=
  if serial ≤ 1 then
    "\n🚨趴下,掩護,穩住🚨\n⚠️震度僅供參考⚠️\n預估震度|抵達時間:"
  else
    "\n🚨趴下,掩護,穩住🚨\n⚠️震度僅供參考⚠️\n震度更新|抵達時間:"

/-- One line of the region breakdown built by the loop of
`_send_region_intensity`: `arrival_time = max(s_arrival_time - current_time, 0)`
followed by the formatted line. -/
def region_line (now : Int) (city region intensity : String) (sArr : Int) : String :=
  let arrival_time : Int := max (sArr - now) 0
  "\n" ++ city ++ " " ++ region ++ ":" ++ intensity ++
    "\n剩餘" ++ toString arrival_time ++ "秒抵達"

/-- The complete region-breakdown message of `_send_region_intensity`. -/
def build_region_message (serial now : Int) (t : Table) : String :=
  (t.foldl (fun acc kv => acc ++ region_line now kv.1.1 kv.1.2 kv.2.1 kv.2.2)
    (region_header serial)) ++ "\n⚠️請以氣象署為準⚠️"

/-- The observable outcome of one `_send_region_intensity` call: the table
after the in-place updates, whether the region-intensity message was posted,
the posted message, and the exception escaping the coroutine, if any. -/
structure StepOut where
  table : Table
  sent : Bool
  message : Option String
  err : Option PyErr
  deriving DecidableEq

/-- `LineNotifyClient._send_region_intensity`: update the table via
`get_region_intensity`, then gate on
`self._region_intensity is not None and self.check_intensity()` (the dict is
initialized to `{}` and never set to `None`, so only the truthiness of
`check_intensity` matters), and post the formatted message when the gate
passes.  An exception raised by the update or the gate escapes the coroutine;
the table keeps the updates already applied. -/
def send_region_intensity (cs : Customization) (serial now : Int) (t : Table)
    (ests : List RegionEstimate) : StepOut :=
  match get_region_intensity cs.enable serial t ests with
  | (t', some err) => { table := t', sent := false, message := none, err := some err }
  | (t', none) =>
    match check_intensity cs t' with
    | .error err => { table := t', sent := false, message := none, err := some err }
    | .ok r =>
      if truthy r then
        { table := t', sent := true,
          message := some (build_region_message serial now t'), err := none }
      else
        { table := t', sent := false, message := none, err := none }

/-- The externally visible dispatch actions of `send_eew` / `update_eew`:
the primary region-intensity POST, and the `asyncio.create_task` scheduling of
the image dispatch. -/
inductive DispatchAction where
  | post_primary
  | schedule_image
  deriving DecidableEq

/-- The outcome of one `send_eew` / `update_eew` call. -/
structure EewOut where
  table : Table
  err : Option PyErr
  actions : List DispatchAction
  deriving DecidableEq

/-- `LineNotifyClient.send_eew`: `await self._send_region_intensity(eew)`, then
`if eew.final: asyncio.create_task(self._send_eew_img(eew))`.  The scheduling
happens only after the awaited primary dispatch has settled; an exception from
`_send_region_intensity` propagates before `create_task` is reached. -/
def send_eew (cs : Customization) (serial now : Int) (final : Bool) (t : Table)
    (ests : List RegionEstimate) : EewOut :=
  let o := send_region_intensity cs serial now t ests
  { table := o.table, err := o.err,
    actions := (if o.sent then [DispatchAction.post_primary] else []) ++
      (if o.err.isNone && final then [DispatchAction.schedule_image] else []) }

/-- `LineNotifyClient.update_eew`: its body is identical, line for line, to
`send_eew`. -/
def update_eew (cs : Customization) (serial now : Int) (final : Bool) (t : Table)
    (ests : List RegionEstimate) : EewOut :=
  let o := send_region_intensity cs serial now t ests
  { table := o.table, err := o.err,
    actions := (if o.sent then [DispatchAction.post_primary] else []) ++
      (if o.err.isNone && final then [DispatchAction.schedule_image] else []) }

/-- Modelled from the spec: the dispatch loop that feeds successive revisions
of successive events to the notification client is not part of this
repository's sources (the caller of `send_eew` / `update_eew` lives in the
host bot framework); section 7 of the spec prescribes that all failures are
terminal at the boundary where they occur and none propagate upward to abort
processing of subsequent revisions.  A revision bundles the fields of the
`eew` object that the client reads. -/
structure Revision where
  serial : Int
  final : Bool
  ests : List RegionEstimate

/-- Modelled from the spec: process a sequence of revisions against one client,
threading the client's (per-instance, in-place mutated) region table, and
continue with the next revision regardless of the previous outcome. -/
def process_revisions (cs : Customization) (now : Int) (t : Table) :
    List Revision → List EewOut
  | [] => []
  | r :: rs =>
    let o := send_eew cs r.serial now r.final t r.ests
    o :: process_revisions cs now o.table rs

/-- The outcome of the `session.post` call inside `_post_line_api`:
a response with `response.ok` true, a response with `response.ok` false
(which makes the code raise `aiohttp.ClientResponseError`), some other
client exception, or cancellation of the surrounding task while awaiting. -/
inductive NetOutcome where
  | respOk (status : Int)
  | respBad (status : Int) (body : String)
  | raised (msg : String)
  | cancelled
  deriving DecidableEq

/-- The arguments and environment of one `_post_line_api` call: truthiness of
the `img`, `msg` and `intensity_msg` parameters, and the network outcome. -/
structure PostArgs where
  img : Bool
  msg : Bool
  intensity_msg : Bool
  net : NetOutcome
  deriving DecidableEq

/-- A log record emitted through `self.logger`. -/
inductive LogEntry where
  | info (s : String)
  | err (s : String)
  | exc (s : String)
  deriving DecidableEq

/-- The `try` block of `_post_line_api`: raise `ValueError` when an image is
given without any message, then perform the POST; raise
`ClientResponseError` when the response is not ok.  On success it returns the
stored `response_status` and the info log. -/
def post_body (a : PostArgs) : Except PyErr (Int × LogEntry) :=
  if a.img && !a.msg && !a.intensity_msg then
    .error .valueError
  else
    match a.net with
    | .respOk st => .ok (st, .info "Message sent to Line-Notify successfully")
    | .respBad _ _ => .error .clientResponseError
    | .raised _ => .error .netError
    | .cancelled => .error .cancelledError

/-- What one `_post_line_api` call leaves behind: the `self.response_status`
update and the log record. -/
structure PostOut where
  response_status : Option Int
  log : LogEntry
  deriving DecidableEq

/-- `LineNotifyClient._post_line_api`: the body wrapped in
`except ValueError` (logged via `logger.error`) and `except Exception`
(logged via `logger.exception`).  `asyncio.CancelledError` derives from
`BaseException`, so `except Exception` does not catch it and it escapes. -/
def post_line_api (a : PostArgs) : Except PyErr PostOut :=
  match post_body a with
  | .ok (st, lg) => .ok { response_status := some st, log := lg }
  | .error .valueError => .ok { response_status := none, log := .err "ValueError" }
  | .error .cancelledError => .error .cancelledError
  | .error _ =>
    .ok { response_status := none,
          log := .exc "Failed to send message alert to Line-Notify" }

/-- The fields of the `eew` object that `get_eew_message` renders. -/
structure EqInfo where
  timeStr : String
  mag : String
  id : String
  loc : String
  depth : String
  maxIntensity : String

/-- `LineNotifyClient.get_eew_message`: the formatted summary followed by the
disclaimer (the code joins them with a space). -/
def get_eew_message (e : EqInfo) : String :=
  ("\n" ++ e.timeStr ++ ",\n發生規模 " ++ e.mag ++ " 地震,\n編號" ++ e.id ++
    ",\n震央位在" ++ e.loc ++ ",\n震源深度" ++ e.depth ++ " 公里,\n最大震度" ++
    e.maxIntensity) ++ " " ++ "\n⚠️圖片僅供參考⚠️\n⚠️以氣象署為準⚠️"

/-- The outcome of `await eq._draw_task` inside `_send_eew_img`. -/
inductive AwaitOutcome where
  | completed
  | cancelled
  deriving DecidableEq

/-- `LineNotifyClient._send_eew_img`: build the caption, await the draw task,
read the image only when `eq.map._drawn` is true, and POST.  When `_drawn` is
false the local `image` is never assigned, so `img=image` raises `NameError`,
which the trailing `except Exception` catches and logs.  `except
asyncio.CancelledError` catches cancellation of the await (and of the POST).
The function therefore never lets an exception escape. -/
def send_eew_img (e : EqInfo) (aw : AwaitOutcome) (drawn : Bool)
    (net : NetOutcome) : Except PyErr LogEntry :=
  let _message := get_eew_message e
  match aw with
  | .cancelled => .ok (.err "Failed get image")
  | .completed =>
    if drawn then
      match post_line_api { img := true, msg := true, intensity_msg := false, net := net } with
      | .ok out => .ok out.log
      | .error .cancelledError => .ok (.err "Failed get image")
      | .error _ => .ok (.exc "Failed to send image alert to Line-Notify")
    else
      .ok (.exc "Failed to send image alert to Line-Notify")

end EEWLineNotify

namespace EEWMap

open EEWLineNotify

/-- The `__slots__` state of `earthquake/map.py`'s `Map` relevant to drawing:
`_image` (the rendered HTML buffer, `None` until drawn) and `_drawn`. -/
structure MapState where
  image : Option String
  drawn : Bool
  deriving DecidableEq

/-- `Map.__init__`: `self._image = None`, `self._drawn = False`. -/
def map_init : MapState := { image := none, drawn := false }

/-- The outcome of the folium rendering performed inside the `try` block of
`Map.draw`: either the rendered HTML, or the exception message of whichever
step raised. -/
inductive RenderOutcome where
  | ok (html : String)
  | fail (msg : String)
  deriving DecidableEq

/-- `Map.draw`: raise `RuntimeError` when `self._eq._expected_intensity is
None` (before the `try`, so it escapes); otherwise run the rendering — on
success assign `self._image = _map` and then `self._drawn = True` (two
consecutive statements with nothing fallible between them), on any exception
print and swallow, leaving the state untouched.  `intensity_present` models
`self._eq._expected_intensity is not None`.  Returns the new state and the
exception escaping `draw`, if any. -/
def map_draw (s : MapState) (intensity_present : Bool) (r : RenderOutcome) :
    MapState × Option PyErr :=
  if !intensity_present then
    (s, some .runtimeError)
  else
    match r with
    | .ok html => ({ image := some html, drawn := true }, none)
    | .fail _ => (s, none)

end EEWMap

namespace EEWLineNotify

instance {ε α : Type} [DecidableEq ε] [DecidableEq α] : DecidableEq (Except ε α) := by
  intro a b
  cases a <;> cases b
  case error.error x y =>
    exact if h : x = y then isTrue (by rw [h]) else isFalse (by simp [h])
  case ok.ok x y =>
    exact if h : x = y then isTrue (by rw [h]) else isFalse (by simp [h])
  case error.ok x y => exact isFalse (by simp)
  case ok.error x y => exact isFalse (by simp)

/-- The region key that `get_region_intensity` builds for an estimate. -/
def estKey (e : RegionEstimate) : RegionKey := (e.city, e.regionName)

lemma dictGet_dictSet_self (t : Table) (k : RegionKey) (v : RegionRecord) :
    dictGet? (dictSet t k v) k = some v := by
  induction t with
  | nil => simp [dictSet, dictGet?]
  | cons hd tl ih =>
    obtain ⟨k', v'⟩ := hd
    by_cases h : k' = k
    · simp [dictSet, dictGet?, h]
    · simp [dictSet, dictGet?, h, ih]

lemma dictGet_dictSet_ne (t : Table) (k k' : RegionKey) (v : RegionRecord)
    (h : k ≠ k') : dictGet? (dictSet t k v) k' = dictGet? t k' := by
  induction t with
  | nil => simp [dictSet, dictGet?, h]
  | cons hd tl ih =>
    obtain ⟨k₀, v₀⟩ := hd
    by_cases h₀ : k₀ = k
    · subst h₀
      simp [dictSet, dictGet?, h]
    · simp [dictSet, dictGet?, h₀, ih]

lemma dictGet_dictSet_isSome (t : Table) (k k' : RegionKey) (v : RegionRecord)
    (h : (dictGet? t k').isSome) : (dictGet? (dictSet t k v) k').isSome := by
  by_cases hk : k = k'
  · subst hk
    simp [dictGet_dictSet_self]
  · rwa [dictGet_dictSet_ne t k k' v hk]

lemma update_region_le_one_ok (c : Bool) (serial : Int) (t : Table)
    (e : RegionEstimate) (hs : serial ≤ 1) :
    update_region c serial t e =
      .ok (if qualifies c e.value then dictSet t (estKey e) (e.display, e.sArrival) else t) := by
  by_cases hq : qualifies c e.value
  · simp [update_region, hq, hs, estKey]
  · simp [update_region, hq]

lemma gri_le_one_ok (c : Bool) (serial : Int) (hs : serial ≤ 1) :
    ∀ (es : List RegionEstimate) (t : Table),
      ∃ t', get_region_intensity c serial t es = (t', none) := by
  intro es
  induction es with
  | nil => intro t; exact ⟨t, rfl⟩
  | cons e es ih =>
    intro t
    obtain ⟨t', h'⟩ := ih (if qualifies c e.value then dictSet t (estKey e) (e.display, e.sArrival) else t)
    exact ⟨t', by simp [get_region_intensity, update_region_le_one_ok c serial t e hs, h']⟩

lemma gri_append (c : Bool) (s : Int) (ys : List RegionEstimate) :
    ∀ (xs : List RegionEstimate) (t : Table),
      get_region_intensity c s t (xs ++ ys) =
        match get_region_intensity c s t xs with
        | (t₁, none) => get_region_intensity c s t₁ ys
        | (t₁, some err) => (t₁, some err) := by
  intro xs
  induction xs with
  | nil => intro t; simp [get_region_intensity]
  | cons x xs ih =>
    intro t
    simp only [List.cons_append, get_region_intensity]
    cases hux : update_region c s t x with
    | ok t₁ => simpa using ih t₁
    | error err => simp

lemma update_region_preserves_untargeted (c : Bool) (s : Int) (t t₁ : Table)
    (e : RegionEstimate) (k : RegionKey)
    (hok : update_region c s t e = .ok t₁)
    (hne : ¬(estKey e = k ∧ qualifies c e.value = true)) :
    dictGet? t₁ k = dictGet? t k := by
  by_cases hq : qualifies c e.value
  · have hkne : estKey e ≠ k := fun hk => hne ⟨hk, hq⟩
    by_cases hs : s ≤ 1
    · simp only [update_region, hq, if_pos, hs, if_true, Except.ok.injEq] at hok
      rw [← hok]
      exact dictGet_dictSet_ne t (estKey e) k _ hkne
    · simp only [update_region, hq, if_pos, hs, if_false] at hok
      cases hget : dictGet? t (e.city, e.regionName) with
      | some r =>
        rw [hget] at hok
        simp only [Except.ok.injEq] at hok
        rw [← hok]
        exact dictGet_dictSet_ne t (estKey e) k _ hkne
      | none =>
        rw [hget] at hok
        simp at hok
  · simp only [update_region, hq, Bool.false_eq_true, if_false, Except.ok.injEq] at hok
    rw [← hok]

lemma gri_preserves_untargeted (c : Bool) (s : Int) (k : RegionKey) :
    ∀ (es : List RegionEstimate) (t t' : Table),
      get_region_intensity c s t es = (t', none) →
      (∀ e ∈ es, ¬(estKey e = k ∧ qualifies c e.value = true)) →
      dictGet? t' k = dictGet? t k := by
  intro es
  induction es with
  | nil =>
    intro t t' hrun _
    simp only [get_region_intensity, Prod.mk.injEq] at hrun
    rw [hrun.1]
  | cons e es ih =>
    intro t t' hrun hall
    simp only [get_region_intensity] at hrun
    cases hux : update_region c s t e with
    | ok t₁ =>
      rw [hux] at hrun
      have h₁ := ih t₁ t' hrun (fun e' he' => hall e' (List.mem_cons_of_mem _ he'))
      rw [h₁]
      exact update_region_preserves_untargeted c s t t₁ e k hux (hall e (List.mem_cons_self _ _))
    | error err =>
      rw [hux] at hrun
      simp at hrun

lemma update_region_preserves_arrival (c : Bool) (s : Int) (t t₁ : Table)
    (e : RegionEstimate) (k : RegionKey) (l : String) (a : Int)
    (hs : 1 < s)
    (hok : update_region c s t e = .ok t₁)
    (hget : dictGet? t k = some (l, a)) :
    ∃ l', dictGet? t₁ k = some (l', a) := by
  by_cases hq : qualifies c e.value
  · by_cases hk : estKey e = k
    · have hs' : ¬ s ≤ 1 := by omega
      simp only [update_region, hq, if_pos, hs', if_false] at hok
      rw [show (e.city, e.regionName) = k from hk, hget] at hok
      simp only [Except.ok.injEq] at hok
      rw [← hok, ← hk]
      exact ⟨e.display, by simpa [estKey] using dictGet_dictSet_self t (estKey e) (e.display, a)⟩
    · rw [update_region_preserves_untargeted c s t t₁ e k hok (fun hc => hk hc.1)]
      exact ⟨l, hget⟩
  · simp only [update_region, hq, Bool.false_eq_true, if_false, Except.ok.injEq] at hok
    rw [← hok]
    exact ⟨l, hget⟩

lemma gri_preserves_arrival (c : Bool) (s : Int) (k : RegionKey) (hs : 1 < s) :
    ∀ (es : List RegionEstimate) (t t' : Table) (l : String) (a : Int),
      get_region_intensity c s t es = (t', none) →
      dictGet? t k = some (l, a) →
      ∃ l', dictGet? t' k = some (l', a) := by
  intro es
  induction es with
  | nil =>
    intro t t' l a hrun hget
    simp only [get_region_intensity, Prod.mk.injEq] at hrun
    rw [← hrun.1]
    exact ⟨l, hget⟩
  | cons e es ih =>
    intro t t' l a hrun hget
    simp only [get_region_intensity] at hrun
    cases hux : update_region c s t e with
    | ok t₁ =>
      rw [hux] at hrun
      obtain ⟨l₁, h₁⟩ := update_region_preserves_arrival c s t t₁ e k l a hs hux hget
      exact ih t₁ t' l₁ a hrun h₁
    | error err =>
      rw [hux] at hrun
      simp at hrun

lemma gri_preserves_isSome (c : Bool) (s : Int) (k : RegionKey) :
    ∀ (es : List RegionEstimate) (t : Table),
      (dictGet? t k).isSome →
      (dictGet? (get_region_intensity c s t es).1 k).isSome := by
  intro es
  induction es with
  | nil => intro t h; exact h
  | cons e es ih =>
    intro t h
    simp only [get_region_intensity]
    cases hux : update_region c s t e with
    | ok t₁ =>
      refine ih t₁ ?_
      by_cases hq : qualifies c e.value
      · by_cases hs : s ≤ 1
        · simp only [update_region, hq, if_pos, hs, if_true, Except.ok.injEq] at hux
          rw [← hux]
          exact dictGet_dictSet_isSome t _ k _ h
        · simp only [update_region, hq, if_pos, hs, if_false] at hux
          cases hget : dictGet? t (e.city, e.regionName) with
          | some r =>
            rw [hget] at hux
            simp only [Except.ok.injEq] at hux
            rw [← hux]
            exact dictGet_dictSet_isSome t _ k _ h
          | none =>
            rw [hget] at hux
            simp at hux
      · simp only [update_region, hq, Bool.false_eq_true, if_false, Except.ok.injEq] at hux
        rw [← hux]
        exact h
    | error err => exact h

lemma process_revisions_length (cs : Customization) (now : Int) :
    ∀ (rs : List Revision) (t : Table),
      (process_revisions cs now t rs).length = rs.length := by
  intro rs
  induction rs with
  | nil => intro t; rfl
  | cons r rest ih =>
    intro t
    simp [process_revisions, ih]

lemma gri_le_one_mem_isSome (c : Bool) (serial : Int) (hs : serial ≤ 1) :
    ∀ (es : List RegionEstimate) (t : Table) (e : RegionEstimate),
      e ∈ es → qualifies c e.value = true →
      (dictGet? (get_region_intensity c serial t es).1 (estKey e)).isSome := by
  intro es
  induction es with
  | nil =>
    intro t e he
    exact absurd he (List.not_mem_nil e)
  | cons x xs ih =>
    intro t e he hq
    simp only [get_region_intensity, update_region_le_one_ok c serial t x hs]
    rcases List.mem_cons.mp he with rfl | he'
    · rw [hq]
      simp only [if_true]
      exact gri_preserves_isSome c serial (estKey e) xs _
        (by simp [dictGet_dictSet_self])
    · exact ih _ e he' hq

/-- Claim C1 (code evaluated at the failing input): `check_intensity` does not
scan the whole table — its loop body returns on the very first iteration, so
only the first dict entry decides the outcome.  With `threshold = 5`, a table
whose first record is level 3 and whose second record is level 5 yields
`False`, although a table holding only that second, level-5 record yields
`True`. -/
theorem c1_threshold_gate_first_entry_only :
    check_intensity ⟨false, ConfVal.int 5⟩
        [(("CityA", "RegionA"), ("3級", 30)), (("CityB", "RegionB"), ("5強", 60))]
      = Except.ok (some false) ∧
    check_intensity ⟨false, ConfVal.int 5⟩
        [(("CityB", "RegionB"), ("5強", 60))]
      = Except.ok (some true) := by
  constructor <;> decide

/-- Claim C3 (code evaluated at the failing input): a revision with
`serial = 2` reporting a qualifying intensity for a key not yet in the table
makes `get_region_intensity` raise `KeyError` (`self._region_intensity[key][1]`
on a missing key) instead of inserting the region. -/
theorem c3_new_key_later_serial_keyerror :
    get_region_intensity false 2 [] [⟨"CityA", "RegionA", 5, "5強", 30⟩]
      = ([], some PyErr.keyError) ∧
    get_region_intensity true 2 [] [⟨"CityA", "RegionA", 5, "5強", 30⟩]
      = ([], some PyErr.keyError) := by
  constructor <;> decide

/-- Claim C4, counterexample: with `customization.enable = false` and
`threshold = 5`, a table whose only record is level 3 makes `check_intensity`
return `False`, and `_send_region_intensity` does not post the message — the
gate does not return true for every revision when `enabled` is false. -/
theorem c4_enabled_false_gate_counterexample :
    check_intensity ⟨false, ConfVal.int 5⟩ [(("CityA", "RegionA"), ("3級", 130))]
      = Except.ok (some false) ∧
    (send_region_intensity ⟨false, ConfVal.int 5⟩ 1 100 []
        [⟨"CityA", "RegionA", 3, "3級", 130⟩]).sent = false := by
  constructor <;> decide

/-- Claim C4 (amended): the gate ignores the `enable` flag entirely —
`check_intensity` reads only `customization.threshold`, so its outcome is the
same for `enabled = false` and `enabled = true`; the region-intensity message
is sent if and only if the update raised nothing and the gate evaluated to
`True` on the (first record of the) updated table. -/
theorem c4_gate_ignores_enabled :
    (∀ (b b' : Bool) (thr : ConfVal) (t : Table),
      check_intensity ⟨b, thr⟩ t = check_intensity ⟨b', thr⟩ t) ∧
    (∀ (cs : Customization) (serial now : Int) (t : Table)
        (ests : List RegionEstimate),
      (send_region_intensity cs serial now t ests).sent = true ↔
        ((send_region_intensity cs serial now t ests).err = none ∧
          check_intensity cs (send_region_intensity cs serial now t ests).table
            = Except.ok (some true))) := by
  constructor
  · intro b b' thr t
    rfl
  · intro cs serial now t ests
    simp only [send_region_intensity]
    cases hg : get_region_intensity cs.enable serial t ests with
    | mk t' oe =>
      cases oe with
      | some err => simp
      | none =>
        cases hc : check_intensity cs t' with
        | error err => simp [hc]
        | ok r =>
          cases r with
          | none => simp [truthy, hc]
          | some b =>
            cases b with
            | true => simp [truthy, hc]
            | false => simp [truthy, hc]

/-- Claim C6, counterexample: the `_region_intensity` dict lives on the client
instance and is never cleared, so after processing the first revision of a
fresh event (CityB) the table still holds the region stored for a previously
processed event (CityA) — it is not a per-event mapping. -/
theorem c6_fresh_event_counterexample :
    dictGet? (get_region_intensity false 1
        (get_region_intensity false 1 [] [⟨"CityA", "RegionA", 5, "5強", 30⟩]).1
        [⟨"CityB", "RegionB", 4, "4級", 60⟩]).1 ("CityA", "RegionA")
      = some ("5強", 30) ∧
    dictGet? (get_region_intensity false 1
        (get_region_intensity false 1 [] [⟨"CityA", "RegionA", 5, "5強", 30⟩]).1
        [⟨"CityB", "RegionB", 4, "4級", 60⟩]).1 ("CityB", "RegionB")
      = some ("4級", 60) := by
  constructor <;> decide

/-- Claim C6 (amended): the region table is per-client and cumulative across
the whole client lifetime — every record present before a revision is still
present (possibly with an updated value) after it, whatever event the revision
belongs to, and a fresh event's first revision adds its qualifying regions
alongside the carried-over ones. -/
theorem c6_table_cumulative_across_events :
    (∀ (c : Bool) (serial : Int) (t : Table) (ests : List RegionEstimate)
        (k : RegionKey) (v : RegionRecord),
      dictGet? t k = some v →
      (dictGet? (get_region_intensity c serial t ests).1 k).isSome) ∧
    (∀ (c : Bool) (t : Table) (ests : List RegionEstimate) (e : RegionEstimate),
      e ∈ ests → qualifies c e.value = true →
      (dictGet? (get_region_intensity c 1 t ests).1 (estKey e)).isSome) := by
  constructor
  · intro c serial t ests k v hv
    exact gri_preserves_isSome c serial k ests t (by simp [hv])
  · intro c t ests e he hq
    exact gri_le_one_mem_isSome c 1 (le_refl 1) ests t e he hq

/-- Claim C6, witness for the amended claim at concrete inputs. -/
theorem c6_table_cumulative_across_events_witness :
    (dictGet? (get_region_intensity false 2
        [(("CityA", "RegionA"), ("5強", 30))] []).1 ("CityA", "RegionA")).isSome ∧
    (dictGet? (get_region_intensity false 1
        [(("CityA", "RegionA"), ("5強", 30))]
        [⟨"CityB", "RegionB", 4, "4級", 60⟩]).1
      (estKey ⟨"CityB", "RegionB", 4, "4級", 60⟩)).isSome := by
  constructor
  · exact c6_table_cumulative_across_events.1 false 2 _ [] ("CityA", "RegionA")
      ("5強", 30) (by decide)
  · exact c6_table_cumulative_across_events.2 false _ _ _ (by decide) (by decide)

/-- Claim C2: arrival times are written only by `serial <= 1` revisions.
Part one: a `serial <= 1` revision that reports a qualifying intensity for a
key (and does not report it again later in the same revision) stores exactly
the reported label and arrival epoch.  Part two: a `serial > 1` revision that
updates a key already in the table replaces the label with the newly reported
one while the stored arrival epoch stays unchanged. -/
theorem c2_arrival_time_invariant :
    (∀ (c : Bool) (serial : Int) (t : Table) (pre post : List RegionEstimate)
        (e : RegionEstimate),
      serial ≤ 1 → qualifies c e.value = true →
      (∀ e' ∈ post, ¬(estKey e' = estKey e ∧ qualifies c e'.value = true)) →
      ∃ t', get_region_intensity c serial t (pre ++ e :: post) = (t', none) ∧
        dictGet? t' (estKey e) = some (e.display, e.sArrival)) ∧
    (∀ (c : Bool) (serial : Int) (t t' : Table)
        (pre post : List RegionEstimate) (e : RegionEstimate)
        (l : String) (a : Int),
      1 < serial → dictGet? t (estKey e) = some (l, a) →
      qualifies c e.value = true →
      (∀ e' ∈ post, ¬(estKey e' = estKey e ∧ qualifies c e'.value = true)) →
      get_region_intensity c serial t (pre ++ e :: post) = (t', none) →
      dictGet? t' (estKey e) = some (e.display, a)) := by
  constructor
  · intro c serial t pre post e hs hq hpost
    obtain ⟨t₀, h₀⟩ := gri_le_one_ok c serial hs pre t
    have hstep : update_region c serial t₀ e
        = .ok (dictSet t₀ (estKey e) (e.display, e.sArrival)) := by
      rw [update_region_le_one_ok c serial t₀ e hs, hq]
      simp
    obtain ⟨t', h'⟩ := gri_le_one_ok c serial hs post
      (dictSet t₀ (estKey e) (e.display, e.sArrival))
    refine ⟨t', ?_, ?_⟩
    · rw [gri_append c serial (e :: post) pre t, h₀]
      simp only [get_region_intensity, hstep]
      exact h'
    · rw [gri_preserves_untargeted c serial (estKey e) post _ t' h' hpost]
      exact dictGet_dictSet_self t₀ (estKey e) (e.display, e.sArrival)
  · intro c serial t t' pre post e l a hs hget hq hpost hrun
    rw [gri_append c serial (e :: post) pre t] at hrun
    cases hpre : get_region_intensity c serial t pre with
    | mk t₀ oe =>
      cases oe with
      | some err =>
        rw [hpre] at hrun
        simp at hrun
      | none =>
        rw [hpre] at hrun
        simp only at hrun
        obtain ⟨l₁, h₁⟩ := gri_preserves_arrival c serial (estKey e) hs pre t t₀
          l a hpre hget
        have hstep : update_region c serial t₀ e
            = .ok (dictSet t₀ (estKey e) (e.display, a)) := by
          have hs' : ¬ serial ≤ 1 := by omega
          simp only [estKey] at h₁
          simp [update_region, hq, hs', h₁, estKey]
        rw [show get_region_intensity c serial t₀ (e :: post)
            = get_region_intensity c serial
                (dictSet t₀ (estKey e) (e.display, a)) post from by
          simp only [get_region_intensity, hstep]] at hrun
        rw [gri_preserves_untargeted c serial (estKey e) post _ t' hrun hpost]
        exact dictGet_dictSet_self t₀ (estKey e) (e.display, a)

/-- Claim C2, witness: the scenario of section 8 of the spec — a first
revision stores `(label 4級, arrival 130)`, and a `serial = 2` revision
reporting the same region with label `5級` and a different arrival leaves the
stored arrival at `130` while the label becomes `5級`. -/
theorem c2_arrival_time_invariant_witness :
    (∃ t', get_region_intensity false 1 []
        ([] ++ (⟨"CityA", "RegionA", 4, "4級", 130⟩ : RegionEstimate) :: [])
        = (t', none) ∧
      dictGet? t' (estKey ⟨"CityA", "RegionA", 4, "4級", 130⟩)
        = some ("4級", 130)) ∧
    dictGet? [(("CityA", "RegionA"), ("5級", 130))]
        (estKey ⟨"CityA", "RegionA", 5, "5級", 999⟩)
      = some ("5級", 130) := by
  constructor
  · exact c2_arrival_time_invariant.1 false 1 [] [] []
      ⟨"CityA", "RegionA", 4, "4級", 130⟩ (by decide) (by decide)
      (by intro e' he'; exact absurd he' (List.not_mem_nil e'))
  · exact c2_arrival_time_invariant.2 false 2
      [(("CityA", "RegionA"), ("4級", 130))]
      [(("CityA", "RegionA"), ("5級", 130))] [] []
      ⟨"CityA", "RegionA", 5, "5級", 999⟩ "4級" 130 (by decide) (by decide)
      (by decide) (by intro e' he'; exact absurd he' (List.not_mem_nil e'))
      (by decide)

/-- Claim C5: when `customization.threshold` is a non-numeric (string) value
and the updated table is non-empty (its first record carrying a digit-bearing
intensity label, as every intensity display does), the gate raises the
invalid-threshold error (`TypeError`, the configuration-error case of the
spec's taxonomy), the error surfaces out of `_send_region_intensity` to its
caller, no notification is sent for that revision, and the (spec-modelled)
dispatch loop still processes every subsequent revision. -/
theorem c5_nonnumeric_threshold_gate_error :
    ∀ (b : Bool) (s : String) (serial now : Int) (t t' tl : Table)
      (ests : List RegionEstimate) (k : RegionKey) (lbl : String) (a : Int)
      (ds : List Char) (final : Bool) (rest : List Revision),
      get_region_intensity b serial t ests = (t', none) →
      t' = (k, (lbl, a)) :: tl →
      findDigits lbl.data = some ds →
      check_intensity ⟨b, ConfVal.str s⟩ t' = Except.error PyErr.typeError ∧
      (send_region_intensity ⟨b, ConfVal.str s⟩ serial now t ests).sent = false ∧
      (send_region_intensity ⟨b, ConfVal.str s⟩ serial now t ests).err
        = some PyErr.typeError ∧
      (process_revisions ⟨b, ConfVal.str s⟩ now t
          (⟨serial, final, ests⟩ :: rest)).length = rest.length + 1 := by
  intro b s serial now t t' tl ests k lbl a ds final rest hgri ht' hds
  have hcheck : check_intensity ⟨b, ConfVal.str s⟩ t'
      = Except.error PyErr.typeError := by
    subst ht'
    simp [check_intensity, hds]
  have hsend : send_region_intensity ⟨b, ConfVal.str s⟩ serial now t ests
      = { table := t', sent := false, message := none,
          err := some PyErr.typeError } := by
    simp only [send_region_intensity]
    rw [hgri]
    simp only [hcheck]
  refine ⟨hcheck, by rw [hsend], by rw [hsend], ?_⟩
  rw [process_revisions_length]
  simp

/-- Claim C5, witness: a concrete string threshold, one level-3 record, and
one further revision in the queue. -/
theorem c5_nonnumeric_threshold_gate_error_witness :
    check_intensity ⟨false, ConfVal.str "高"⟩ [(("CityA", "RegionA"), ("3級", 130))]
      = Except.error PyErr.typeError ∧
    (send_region_intensity ⟨false, ConfVal.str "高"⟩ 1 100 []
        [⟨"CityA", "RegionA", 3, "3級", 130⟩]).sent = false ∧
    (send_region_intensity ⟨false, ConfVal.str "高"⟩ 1 100 []
        [⟨"CityA", "RegionA", 3, "3級", 130⟩]).err = some PyErr.typeError ∧
    (process_revisions ⟨false, ConfVal.str "高"⟩ 100 []
        (⟨1, false, [⟨"CityA", "RegionA", 3, "3級", 130⟩]⟩ ::
          [⟨2, true, []⟩])).length = [(⟨2, true, []⟩ : Revision)].length + 1 := by
  exact c5_nonnumeric_threshold_gate_error false "高" 1 100 []
    [(("CityA", "RegionA"), ("3級", 130))] [] [⟨"CityA", "RegionA", 3, "3級", 130⟩]
    ("CityA", "RegionA") "3級" 130 ['3'] false [⟨2, true, []⟩]
    (by decide) rfl (by decide)

/-- Claim C7: for every `final = true` revision whose handling raises nothing,
both `send_eew` and `update_eew` schedule exactly one image-dispatch task, it
appears strictly after the (settled) primary region-intensity dispatch in the
action order, and it is scheduled whether the threshold gate evaluated true
(primary posted) or false (no primary post). -/
theorem c7_final_image_dispatch_after_primary :
    ∀ (cs : Customization) (serial now : Int) (t : Table)
      (ests : List RegionEstimate),
      ((send_eew cs serial now true t ests).err = none →
        ∃ pre, (send_eew cs serial now true t ests).actions
            = pre ++ [DispatchAction.schedule_image] ∧
          (pre = [] ∨ pre = [DispatchAction.post_primary])) ∧
      ((update_eew cs serial now true t ests).err = none →
        ∃ pre, (update_eew cs serial now true t ests).actions
            = pre ++ [DispatchAction.schedule_image] ∧
          (pre = [] ∨ pre = [DispatchAction.post_primary])) := by
  intro cs serial now t ests
  constructor
  · intro herr
    simp only [send_eew] at herr ⊢
    rw [herr]
    cases hsent : (send_region_intensity cs serial now t ests).sent
    · exact ⟨[], by simp, Or.inl rfl⟩
    · exact ⟨[DispatchAction.post_primary], by simp, Or.inr rfl⟩
  · intro herr
    simp only [update_eew] at herr ⊢
    rw [herr]
    cases hsent : (send_region_intensity cs serial now t ests).sent
    · exact ⟨[], by simp, Or.inl rfl⟩
    · exact ⟨[DispatchAction.post_primary], by simp, Or.inr rfl⟩

/-- Claim C7, witness: a final first revision whose gate evaluates false
(empty table, gate returns `None`) still schedules the image task, for both
entry points. -/
theorem c7_final_image_dispatch_after_primary_witness :
    (∃ pre, (send_eew ⟨false, ConfVal.int 1⟩ 1 100 true [] []).actions
        = pre ++ [DispatchAction.schedule_image] ∧
      (pre = [] ∨ pre = [DispatchAction.post_primary])) ∧
    (∃ pre, (update_eew ⟨false, ConfVal.int 1⟩ 1 100 true [] []).actions
        = pre ++ [DispatchAction.schedule_image] ∧
      (pre = [] ∨ pre = [DispatchAction.post_primary])) := by
  constructor
  · exact (c7_final_image_dispatch_after_primary ⟨false, ConfVal.int 1⟩
      1 100 [] []).1 (by decide)
  · exact (c7_final_image_dispatch_after_primary ⟨false, ConfVal.int 1⟩
      1 100 [] []).2 (by decide)

lemma post_body_cancelled (a : PostArgs)
    (h : post_body a = Except.error PyErr.cancelledError) :
    a.net = NetOutcome.cancelled := by
  by_cases hv : (a.img && !a.msg && !a.intensity_msg) = true
  · simp [post_body, hv] at h
  · cases hn : a.net <;> simp [post_body, hv, hn] at h ⊢

/-- Claim C8: delivery failures stay inside the sink call.  `_post_line_api`
returns normally — logging instead of raising — for every argument and
network outcome other than task cancellation (the invalid image-without-
message combination raises `ValueError`, a non-ok response raises
`ClientResponseError`, a transport failure raises a client exception, and all
are caught by the `except` clauses); `_send_eew_img` returns normally for
every input, including cancellation and the missing-image `NameError`.  The
final two conjuncts show the wrapped body genuinely raises, so the handlers
are not vacuous. -/
theorem c8_sink_never_raises :
    (∀ a : PostArgs, a.net ≠ NetOutcome.cancelled →
      ∃ r, post_line_api a = Except.ok r) ∧
    (∀ (e : EqInfo) (aw : AwaitOutcome) (drawn : Bool) (net : NetOutcome),
      ∃ lg, send_eew_img e aw drawn net = Except.ok lg) ∧
    (∃ a : PostArgs, post_body a = Except.error PyErr.valueError) ∧
    (∃ a : PostArgs, post_body a = Except.error PyErr.clientResponseError) := by
  refine ⟨?_, ?_, ⟨⟨true, false, false, .respOk 200⟩, by decide⟩,
    ⟨⟨false, true, false, .respBad 400 ""⟩, by decide⟩⟩
  · intro a hn
    cases hb : post_body a with
    | ok v =>
      simp only [post_line_api, hb]
      exact ⟨_, rfl⟩
    | error err =>
      cases err <;>
        first
        | exact absurd (post_body_cancelled a hb) hn
        | (simp only [post_line_api, hb]; exact ⟨_, rfl⟩)
  · intro e aw drawn net
    cases aw with
    | cancelled => exact ⟨_, rfl⟩
    | completed =>
      cases drawn with
      | false => exact ⟨_, rfl⟩
      | true =>
        cases hp : post_line_api ⟨true, true, false, net⟩ with
        | ok out =>
          simp only [send_eew_img, hp]
          exact ⟨_, rfl⟩
        | error err =>
          cases err <;> (simp only [send_eew_img, hp]; exact ⟨_, rfl⟩)

/-- Claim C8, witness: a failing POST (rejected response) is absorbed by
`_post_line_api`, and a cancelled draw await is absorbed by `_send_eew_img`. -/
theorem c8_sink_never_raises_witness :
    (∃ r, post_line_api ⟨false, true, false, NetOutcome.respBad 500 "err"⟩
      = Except.ok r) ∧
    (∃ lg, send_eew_img ⟨"t", "m", "i", "l", "d", "x"⟩ AwaitOutcome.cancelled
        true (NetOutcome.respOk 200) = Except.ok lg) := by
  constructor
  · exact c8_sink_never_raises.1 ⟨false, true, false, NetOutcome.respBad 500 "err"⟩
      (by decide)
  · exact c8_sink_never_raises.2.1 ⟨"t", "m", "i", "l", "d", "x"⟩
      AwaitOutcome.cancelled true (NetOutcome.respOk 200)

/-- Claim C9: the rendered remaining-seconds value of every region line equals
`max(arrivalEpoch - nowEpoch, 0)` and is never negative; in particular with
`arrivalEpoch = now - 10` the line renders the countdown `0` (and `0 : Int`
prints as the digit `0`), not `-10`. -/
theorem c9_remaining_time_nonnegative :
    (∀ (now sArr : Int) (city region intensity : String),
      ∃ k : Int, 0 ≤ k ∧ k = max (sArr - now) 0 ∧
        region_line now city region intensity sArr =
          "\n" ++ city ++ " " ++ region ++ ":" ++ intensity ++
            "\n剩餘" ++ toString k ++ "秒抵達") ∧
    (∀ (now : Int) (city region intensity : String),
      region_line now city region intensity (now - 10) =
        "\n" ++ city ++ " " ++ region ++ ":" ++ intensity ++
          "\n剩餘" ++ toString (0 : Int) ++ "秒抵達") ∧
    toString (0 : Int) = "0" := by
  refine ⟨?_, ?_, by decide⟩
  · intro now sArr city region intensity
    exact ⟨max (sArr - now) 0, le_max_right _ _, rfl, rfl⟩
  · intro now city region intensity
    simp only [region_line]
    rw [show now - 10 - now = (-10 : Int) from by omega]
    rw [show max (-10 : Int) 0 = 0 from by decide]

end EEWLineNotify

namespace EEWMap

/-- Claim C10: the `Map` drawing invariant — `_drawn` is false at
construction; whenever `_drawn` is true the image is present (the invariant is
preserved by `draw`); if `draw` fails at any point (the `RuntimeError` raised
when the intensity has not been calculated, or any rendering exception,
swallowed by the `except` clause) then `_drawn` stays false; and the success
path stores the rendered image and sets `_drawn` in the same step, with
nothing fallible between the two assignments. -/
theorem c10_map_drawn_invariant :
    map_init.drawn = false ∧
    (∀ (s : MapState) (ip : Bool) (r : RenderOutcome),
      (s.drawn = true → s.image.isSome) →
      (((map_draw s ip r).1).drawn = true → ((map_draw s ip r).1).image.isSome)) ∧
    (∀ (s : MapState) (ip : Bool) (r : RenderOutcome),
      s.drawn = false →
      (ip = false ∨ ∃ m, r = RenderOutcome.fail m) →
      ((map_draw s ip r).1).drawn = false) ∧
    (∀ (s : MapState) (html : String),
      map_draw s true (RenderOutcome.ok html)
        = ({ image := some html, drawn := true }, none)) := by
  refine ⟨rfl, ?_, ?_, ?_⟩
  · intro s ip r hinv
    cases ip with
    | false => simpa [map_draw] using hinv
    | true =>
      cases r with
      | ok html => simp [map_draw]
      | fail m => simpa [map_draw] using hinv
  · intro s ip r hdrawn hfail
    cases ip with
    | false => simpa [map_draw] using hdrawn
    | true =>
      rcases hfail with hip | ⟨m, rfl⟩
      · exact absurd hip (by simp)
      · simpa [map_draw] using hdrawn
  · intro s html
    rfl

/-- Claim C10, witness: the invariant statements applied to the freshly
constructed map, a failing draw (no intensity yet) and a successful draw. -/
theorem c10_map_drawn_invariant_witness :
    (((map_draw map_init false (RenderOutcome.ok "html")).1).drawn = true →
      ((map_draw map_init false (RenderOutcome.ok "html")).1).image.isSome) ∧
    ((map_draw map_init false (RenderOutcome.ok "html")).1).drawn = false ∧
    ((map_draw map_init true (RenderOutcome.fail "boom")).1).drawn = false ∧
    map_draw map_init true (RenderOutcome.ok "html")
      = ({ image := some "html", drawn := true }, none) := by
  refine ⟨?_, ?_, ?_, ?_⟩
  · exact c10_map_drawn_invariant.2.1 map_init false (RenderOutcome.ok "html")
      (by intro h; exact absurd h (by decide))
  · exact c10_map_drawn_invariant.2.2.1 map_init false (RenderOutcome.ok "html")
      rfl (Or.inl rfl)
  · exact c10_map_drawn_invariant.2.2.1 map_init true (RenderOutcome.fail "boom")
      rfl (Or.inr ⟨"boom", rfl⟩)
  · exact c10_map_drawn_invariant.2.2.2 map_init "html"

end EEWMap
